import Mathlib

/-!
Verification development for the ts-template repository: a shallow embedding
of its HTTP routing, validation and error-handling pipeline
(`HandlerFactory.findHandler`, `HttpRouter.executeHandler`,
`SchemaValidationService.validate`, `HttpErrorHandler.handleError`,
`RouteNotFoundHandler.handle`, the user schemas, the user request handlers
and the in-memory user repository), together with theorems settling the
specification's claims about them.

Conventions:
  - TS strings are Lean `String` (ASCII behaviour of `toLowerCase`,
    `toUpperCase`, `trim` is modelled with `Char.toLower`/`Char.toUpper`
    and an ASCII whitespace test).
  - JS objects that cross component boundaries are modelled by the `Json`
    inductive; object key order mirrors the source's insertion order.
  - Thrown errors are modelled by the `AppError` inductive whose
    constructors mirror the repository's error classes; `instanceof`
    dispatch is modelled by matching on the constructor.
  - `Date`/timestamps and correlation-id randomness are passed in as
    explicit parameters.
-/

/-- JSON-like values, modelling the JS objects exchanged by the pipeline. -/
inductive Json where
  | str (s : String)
  | arr (xs : List Json)
  | obj (fields : List (String × Json))
  | null

/-- Field lookup on a JSON object (`undefined` on non-objects / missing keys). -/
def Json.getField : Json → String → Option Json
  | .obj fs, k => fs.lookup k
  | _, _ => none

/-- `String.toLowerCase` (ASCII). -/
def lowerStr (s : String) : String := String.mk (s.data.map Char.toLower)

/-- `String.toUpperCase` (ASCII). -/
def upperStr (s : String) : String := String.mk (s.data.map Char.toUpper)

/-- ASCII whitespace, as removed by `String.prototype.trim`. -/
def isJsWhitespace (c : Char) : Bool :=
  c == ' ' || c == '\t' || c == '\n' || c == '\r' ||
  c == Char.ofNat 11 || c == Char.ofNat 12

/-- `String.prototype.trim` (ASCII whitespace). -/
def trimStr (s : String) : String :=
  String.mk (((s.data.dropWhile isJsWhitespace).reverse.dropWhile isJsWhitespace).reverse)

/-- Is `needle` a prefix of `hay`? (character lists) -/
def listPrefixOf : List Char → List Char → Bool
  | [], _ => true
  | _ :: _, [] => false
  | a :: as, b :: bs => a == b && listPrefixOf as bs

/-- Does `hay` contain `needle` as a contiguous run? -/
def substrAux (hay needle : List Char) : Bool :=
  listPrefixOf needle hay ||
    match hay with
    | [] => false
    | _ :: t => substrAux t needle

/-- `String.prototype.includes`. -/
def strIncludes (s sub : String) : Bool := substrAux s.data sub.data

/-- Loop of `splitOnChar`: split a character list at a separator. -/
def splitOnCharAux (c : Char) : List Char → List Char → List String
  | [], acc => [String.mk acc.reverse]
  | a :: t, acc =>
      if a == c then String.mk acc.reverse :: splitOnCharAux c t []
      else splitOnCharAux c t (a :: acc)

/-- `String.split` on a one-character separator (the behaviour of
`s.splitOn sep` for the separators `/`, `.` and `@` used here). -/
def splitOnChar (s : String) (c : Char) : List String := splitOnCharAux c s.data []

/-!
## Route pattern matching

`HandlerFactory.findHandler` (src/application/services/handler-factory.service.ts)
matches the request pathname against each handler's `pathname` pattern with
`path-to-regexp`'s `match`. The registered patterns are plain slash-separated
templates (`/health`, `/hello`, `/users`, `/users/:id`), for which `match`
performs segment matching: a literal segment must be equal, a `:name` segment
captures one non-empty path segment. We embed exactly that segment semantics
(the trailing-slash leniency of `path-to-regexp` is irrelevant to the claims
and not modelled).
-/

/-- One segment of a route pattern: a literal or a `:name` parameter. -/
inductive Seg where
  | lit (s : String)
  | param (name : String)

/-- Parse one pattern segment: `:name` is a parameter, anything else literal. -/
def parseSeg (s : String) : Seg :=
  match s.data with
  | ':' :: rest => .param (String.mk rest)
  | _ => .lit s

/-- Parse a route pattern into its segments. -/
def parsePattern (p : String) : List Seg := (splitOnChar p '/').map parseSeg

/-- Split a request pathname into its segments. -/
def splitPath (p : String) : List String := splitOnChar p '/'

/-- Matching a segment list against path segments, returning captured params. -/
def matchSegs : List Seg → List String → Option (List (String × String))
  | [], [] => some []
  | .lit s :: ps, x :: xs => if s = x then matchSegs ps xs else none
  | .param n :: ps, x :: xs =>
      if x = "" then none else (matchSegs ps xs).map (fun r => (n, x) :: r)
  | _, _ => none

/-- The result object returned by `path-to-regexp`'s `match` on success:
it carries the matched `path` alongside the captured `params`. -/
structure MatchResult where
  path : String
  params : List (String × String)
deriving DecidableEq

/-- `match(handler.pathname)(pathname)`: segment matching of the pattern. -/
def matchPattern (pattern pathname : String) : Option MatchResult :=
  (matchSegs (parsePattern pattern) (splitPath pathname)).map
    (fun ps => { path := pathname, params := ps })

/-- JS view of a `path-to-regexp` match result: an object with the matched
`path` and the `params` mapping as fields. -/
def MatchResult.toJson (m : MatchResult) : Json :=
  .obj [("path", .str m.path), ("params", .obj (m.params.map (fun p => (p.1, .str p.2))))]

/-- The routing-relevant data of a registered `IRequestHandler`:
its `pathname` pattern and its (uppercase) HTTP `method`. -/
structure Route where
  pathname : String
  method : String
deriving DecidableEq

/-- The scan loop of `HandlerFactory.findHandler`, after method
normalisation: skip a handler whose pattern does not match, skip a handler
whose method differs, return the first handler passing both checks. -/
def findHandlerAux (pathname normalizedMethod : String) : List Route → Option (Route × MatchResult)
  | [] => none
  | h :: t =>
      match matchPattern h.pathname pathname with
      | none => findHandlerAux pathname normalizedMethod t
      | some m =>
          if h.method = normalizedMethod then some (h, m)
          else findHandlerAux pathname normalizedMethod t

/-- `HandlerFactory.findHandler` (src/application/services/handler-factory.service.ts):
normalises the method to uppercase, scans the registered handlers in order
and returns the first whose pattern matches the pathname and whose declared
method equals the normalised method; `none` models the
"no handler found" exit, in which the source returns the injected
`RouteNotFoundHandler` with empty params. -/
def findHandler (handlers : List Route) (pathname method : String) : Option (Route × MatchResult) :=
  findHandlerAux pathname (upperStr method) handlers

/-- The four routes registered in src/container.ts
(`HealthRequestHandler`, `HelloWorldRequestHandler`,
`CreateUserRequestHandler`, `GetUserRequestHandler`), in registration order.
Modelled from the spec: the handler classes in src declare their `pathname`s
but several omit the `method` field required by `IRequestHandler`; the
methods (GET, GET, POST, GET) are taken from the spec's endpoint list. -/
def appRoutes : List Route :=
  [ { pathname := "/health", method := "GET" },
    { pathname := "/hello", method := "GET" },
    { pathname := "/users", method := "POST" },
    { pathname := "/users/:id", method := "GET" } ]

/-!
## Errors

`AppError` mirrors the repository's thrown error values. The constructor
structure encodes the `instanceof` hierarchy used for dispatch:
  - `zodError` is zod's `ZodError` (a raw schema failure);
  - `applicationError` covers `ApplicationError` and all its subclasses
    (`ConflictError`, `NotFoundError`, `RouteNotFoundError`, ...), carrying
    their `code`, `message`, `statusCode` and optional `details`;
  - `schemaValidationError` and `invalidRequestError` are the
    `DomainValidationError` subclasses of src/domain/errors/validation.errors.ts,
    which extend plain `Error` (not `ApplicationError` and not `ZodError`);
  - `plainError` is any other `Error`.
-/

/-- One zod validation issue (`path`, `message`, issue `code`). The
`expected`/`received` enrichment that `HttpErrorHandler` copies for some
issue kinds is not modelled. -/
structure ZodIssue where
  path : List String
  message : String
  code : String
deriving DecidableEq

/-- A thrown error, by (`instanceof`-relevant) class. -/
inductive AppError where
  | zodError (issues : List ZodIssue)
  | applicationError (code message : String) (statusCode : Nat) (details : Option Json)
  | schemaValidationError (message : String) (fieldErrors : List (String × List String))
  | invalidRequestError (message : String)
  | plainError (message : String)

/-- `error.message` of the modelled error value. -/
def AppError.message : AppError → String
  | .zodError _ => "Schema validation failed"
  | .applicationError _ m _ _ => m
  | .schemaValidationError m _ => m
  | .invalidRequestError m => m
  | .plainError m => m

/-- `new ConflictError("User with this email already exists", "User", "email")`
(src/domain/errors/conflict.error.ts): code `CONFLICT`, status 409. -/
def conflictUserEmailError : AppError :=
  .applicationError "CONFLICT" "User with this email already exists" 409
    (some (.obj [("resource", .str "User"), ("field", .str "email")]))

/-- `new NotFoundError("User", id)` (src/domain/errors/not-found.error.ts):
code `NOT_FOUND`, status 404, message `"User with identifier {id} not found"`. -/
def notFoundUserError (id : String) : AppError :=
  .applicationError "NOT_FOUND" ("User with identifier " ++ id ++ " not found") 404
    (some (.obj [("resource", .str "User"), ("identifier", .str id)]))

/-!
## Zod schemas (src/domain/schemas/user.schema.ts)

`NameSchema  = z.string().min(1, "Name is required").max(100, "...").trim()`
`EmailSchema = z.email().toLowerCase().trim()`
`CreateUserSchema = z.object({ name: NameSchema, email: EmailSchema })`

zod runs a string schema's checks and transforms in declaration order, so
`NameSchema` tests `min`/`max` against the *untrimmed* input and only then
applies `trim`; `EmailSchema` tests the email format against the raw input
and then lower-cases and trims it.
-/

/-- zod v4's default email regex
`^(?!\.)(?!.*\.\.)([A-Za-z0-9_'+\-\.]*)[A-Za-z0-9_+-]@([A-Za-z0-9][A-Za-z0-9\-]*\.)+[A-Za-z]{2,}$`:
character class of the local part. -/
def isEmailLocalChar (c : Char) : Bool :=
  c.isAlphanum || c == '_' || c == Char.ofNat 39 || c == '+' || c == '-' || c == '.'

/-- Last character of the local part: `[A-Za-z0-9_+-]`. -/
def isEmailLocalLastChar (c : Char) : Bool :=
  c.isAlphanum || c == '_' || c == '+' || c == '-'

/-- Local part: `([A-Za-z0-9_'+\-\.]*)[A-Za-z0-9_+-]`. -/
def isEmailLocal (cs : List Char) : Bool :=
  cs.all isEmailLocalChar &&
    match cs.getLast? with
    | some c => isEmailLocalLastChar c
    | none => false

/-- A non-final domain label: `[A-Za-z0-9][A-Za-z0-9\-]*`. -/
def isEmailLabel (lab : String) : Bool :=
  match lab.data with
  | [] => false
  | c :: t => c.isAlphanum && t.all (fun d => d.isAlphanum || d == '-')

/-- The final label: `[A-Za-z]{2,}`. -/
def isEmailTld (t : String) : Bool :=
  t.data.length ≥ 2 && t.data.all Char.isAlpha

/-- Domain: `([A-Za-z0-9][A-Za-z0-9\-]*\.)+[A-Za-z]{2,}`. -/
def isEmailDomain (d : String) : Bool :=
  match (splitOnChar d '.').reverse with
  | [] => false
  | [_] => false
  | tld :: labs => isEmailTld tld && labs.all isEmailLabel

/-- `z.email()`'s default regex as a decision procedure: no leading dot, no
`..` anywhere, local part `@` domain. -/
def isValidEmail (s : String) : Bool :=
  (match s.data with
   | '.' :: _ => false
   | _ => true) &&
  !(strIncludes s "..") &&
  (match splitOnChar s '@' with
   | [loc, dom] => isEmailLocal loc.data && isEmailDomain dom
   | _ => false)

/-- `NameSchema`'s check messages for a raw string (in check order). -/
def nameCheckMsgs (raw : String) : List String :=
  (if raw.length < 1 then ["Name is required"] else []) ++
  (if raw.length > 100 then ["Name must be less than 100 characters"] else [])

/-- `NameSchema.parse` on a string: `min(1)`/`max(100)` on the raw value,
then `trim`. -/
def nameParse (raw : String) : Except (List String) String :=
  match nameCheckMsgs raw with
  | [] => .ok (trimStr raw)
  | msgs => .error msgs

/-- `EmailSchema.parse` on a string: format check on the raw value, then
`toLowerCase`, then `trim`. -/
def emailParse (raw : String) : Except (List String) String :=
  if isValidEmail raw then .ok (trimStr (lowerStr raw)) else .error ["Invalid email address"]

/-- zod's name for a JSON value's type, used in `invalid_type` messages. -/
def Json.typeName : Json → String
  | .str _ => "string"
  | .arr _ => "array"
  | .obj _ => "object"
  | .null => "null"

/-- Parse one string-typed object property: missing/non-string values give an
`invalid_type` issue at the field's path, strings run the field schema. -/
def fieldParse (field : String) (v : Option Json)
    (p : String → Except (List String) String) : Except (List ZodIssue) String :=
  match v with
  | some (.str s) =>
      (p s).mapError (fun msgs => msgs.map (fun m => { path := [field], message := m, code := "custom" }))
  | some other =>
      .error [{ path := [field],
                message := "Invalid input: expected string, received " ++ other.typeName,
                code := "invalid_type" }]
  | none =>
      .error [{ path := [field],
                message := "Invalid input: expected string, received undefined",
                code := "invalid_type" }]

/-- The validated output of `CreateUserSchema`. -/
structure CreateUserInput where
  name : String
  email : String
deriving DecidableEq

/-- `CreateUserSchema.parse`: an object whose `name` and `email` properties
are validated in shape order, aggregating the issues of both fields. -/
def parseCreateUser (j : Json) : Except (List ZodIssue) CreateUserInput :=
  match j with
  | .obj fs =>
      match fieldParse "name" (fs.lookup "name") nameParse,
            fieldParse "email" (fs.lookup "email") emailParse with
      | .ok n, .ok e => .ok { name := n, email := e }
      | .ok _, .error es => .error es
      | .error ns, .ok _ => .error ns
      | .error ns, .error es => .error (ns ++ es)
  | other =>
      .error [{ path := [],
                message := "Invalid input: expected object, received " ++ other.typeName,
                code := "invalid_type" }]

/-!
## SchemaValidationService (src/application/services/schema-validation.service.ts)
-/

/-- Appending one issue message under its dotted field path
(the loop body of the `fieldErrors` accumulation). -/
def addFieldError (acc : List (String × List String)) (field msg : String) :
    List (String × List String) :=
  if acc.any (fun p => p.1 == field) then
    acc.map (fun p => if p.1 == field then (p.1, p.2 ++ [msg]) else p)
  else acc ++ [(field, [msg])]

/-- `issue.path.join(".")`. -/
def joinPath (p : List String) : String := String.intercalate "." p

/-- The `fieldErrors` mapping built from a list of zod issues. -/
def buildFieldErrors (issues : List ZodIssue) : List (String × List String) :=
  issues.foldl (fun acc i => addFieldError acc (joinPath i.path) i.message) []

/-- `SchemaValidationService.validate`: run the schema; on a zod failure,
wrap the issues into a `SchemaValidationError` (which extends plain `Error`,
not `ApplicationError` and not `ZodError`) carrying the `fieldErrors` map. -/
def schemaValidate {α : Type} (parse : Json → Except (List ZodIssue) α) (data : Json) :
    Except AppError α :=
  match parse data with
  | .ok v => .ok v
  | .error issues =>
      .error (.schemaValidationError "Schema validation failed" (buildFieldErrors issues))

/-!
## HTTP responses and the in-memory user store
-/

/-- An HTTP response: status code and JSON body (headers are not modelled). -/
structure HttpResponse where
  status : Nat
  body : Json

/-- The `code` string under the body's `error` field, when present. -/
def HttpResponse.errorCode (r : HttpResponse) : Option String :=
  match r.body.getField "error" with
  | some (.obj fs) =>
      match fs.lookup "code" with
      | some (.str c) => some c
      | _ => none
  | _ => none

/-- The `details` value under the body's `error` field, when present. -/
def HttpResponse.errorDetails (r : HttpResponse) : Option Json :=
  match r.body.getField "error" with
  | some (.obj fs) => fs.lookup "details"
  | _ => none

/-- A stored user (`User` of src/domain/types/entity.types.ts); the `Date`
fields are modelled as their ISO strings. -/
structure User where
  id : String
  name : String
  email : String
  createdAt : String
  updatedAt : String
deriving DecidableEq

/-- The state of `MemoryUserRepository`: its `users: Map<string, User>` (as
an insertion-ordered entry list keyed by `User.id`) and its `idCounter`. -/
structure UserStore where
  users : List User
  idCounter : Nat
deriving DecidableEq

/-- `Map.set(id, user)`: replace the entry with that key, else append. -/
def setEntry : List User → User → List User
  | [], u => [u]
  | v :: t, u => if v.id == u.id then u :: t else v :: setEntry t u

/-- `MemoryUserRepository.findById` (src variant): return the stored user or
throw `NotFoundError("User", id)`. -/
def repoFindById (s : UserStore) (id : String) : Except AppError User :=
  match s.users.find? (fun u => u.id == id) with
  | some u => .ok u
  | none => .error (notFoundUserError id)

/-- `MemoryUserRepository.create`: throw `ConflictError` if a stored user
already holds exactly this email, else assign `String(idCounter++)` as id,
stamp `createdAt = updatedAt = now` and store the user. -/
def repoCreate (s : UserStore) (name email now : String) : Except AppError (User × UserStore) :=
  if (s.users.find? (fun u => u.email == email)).isSome then
    .error conflictUserEmailError
  else
    let id := toString s.idCounter
    let user : User := { id := id, name := name, email := email, createdAt := now, updatedAt := now }
    .ok (user, { users := setEntry s.users user, idCounter := s.idCounter + 1 })

/-- The `UserResponseDto` JSON built by the use cases. -/
def userDtoJson (u : User) : Json :=
  .obj [("id", .str u.id), ("name", .str u.name), ("email", .str u.email),
        ("createdAt", .str u.createdAt), ("updatedAt", .str u.updatedAt)]

/-!
## User request handlers (src/presentation/handlers/user.handler.ts)
-/

/-- `CreateUserRequestHandler.getErrorStatusCode`: domain validation errors
are 400; otherwise classify by substrings of the lower-cased message. -/
def createGetErrorStatusCode (e : AppError) : Nat :=
  match e with
  | .schemaValidationError _ _ => 400
  | .invalidRequestError _ => 400
  | _ =>
      let m := lowerStr e.message
      if strIncludes m "required" || strIncludes m "invalid" then 400
      else if strIncludes m "already exists" || strIncludes m "duplicate" then 409
      else 500

/-- `CreateUserRequestHandler.getErrorCode`: substring classification of the
lower-cased message. -/
def createGetErrorCode (e : AppError) : String :=
  let m := lowerStr e.message
  if strIncludes m "name" then "INVALID_NAME"
  else if strIncludes m "email" then "INVALID_EMAIL"
  else if strIncludes m "json" then "INVALID_JSON"
  else "CREATE_USER_ERROR"

/-- The `fieldErrors` record as JSON. -/
def fieldErrorsJson (fe : List (String × List String)) : Json :=
  .obj (fe.map (fun p => (p.1, .arr (p.2.map Json.str))))

/-- `CreateUserRequestHandler.formatErrorResponse`: `SchemaValidationError`
keeps its code and exposes its `fieldErrors` as `details`;
`InvalidRequestError` keeps its code; anything else gets `getErrorCode`. -/
def createFormatErrorResponse (e : AppError) : Json :=
  match e with
  | .schemaValidationError msg fe =>
      .obj [("code", .str "SCHEMA_VALIDATION"), ("message", .str msg),
            ("details", fieldErrorsJson fe)]
  | .invalidRequestError msg =>
      .obj [("code", .str "INVALID_REQUEST"), ("message", .str msg)]
  | _ =>
      .obj [("code", .str (createGetErrorCode e)), ("message", .str e.message)]

/-- `CreateUserRequestHandler.handle`, given the already-parsed JSON body
`rawBody` (the `JsonBodyParser` result): validate against `CreateUserSchema`,
run `CreateUserUseCase` (repository `create`), answer 201 with the user DTO;
any thrown error is caught in the handler and formatted with
`getErrorStatusCode`/`formatErrorResponse`, with the response timestamp `ts`.
`now` is the creation timestamp. Returns the response and the new store. -/
def createUserHandle (s : UserStore) (rawBody : Json) (now ts : String) :
    HttpResponse × UserStore :=
  match schemaValidate parseCreateUser rawBody with
  | .error e =>
      ({ status := createGetErrorStatusCode e,
         body := .obj [("error", createFormatErrorResponse e), ("timestamp", .str ts)] }, s)
  | .ok dto =>
      match repoCreate s dto.name dto.email now with
      | .error e =>
          ({ status := createGetErrorStatusCode e,
             body := .obj [("error", createFormatErrorResponse e), ("timestamp", .str ts)] }, s)
      | .ok (user, s') =>
          ({ status := 201, body := userDtoJson user }, s')

/-- `GetUserRequestHandler.getErrorStatusCode`. -/
def getGetErrorStatusCode (e : AppError) : Nat :=
  let m := lowerStr e.message
  if strIncludes m "not found" || strIncludes m "id" then 404
  else if strIncludes m "required" || strIncludes m "invalid" then 400
  else 500

/-- `GetUserRequestHandler.getErrorCode`. -/
def getGetErrorCode (e : AppError) : String :=
  let m := lowerStr e.message
  if strIncludes m "not found" then "USER_NOT_FOUND"
  else if strIncludes m "id" then "INVALID_USER_ID"
  else "GET_USER_ERROR"

/-- `GetUserRequestHandler.handle` with validated `params.id = id`: run
`GetUserUseCase` (repository `findById`), answer 200 with the user DTO; a
thrown error is caught in the handler and formatted with its
`getErrorStatusCode`/`getErrorCode`, with response timestamp `ts`. -/
def getUserHandle (s : UserStore) (id ts : String) : HttpResponse :=
  match repoFindById s id with
  | .ok user => { status := 200, body := userDtoJson user }
  | .error e =>
      { status := getGetErrorStatusCode e,
        body := .obj [("error", .obj [("code", .str (getGetErrorCode e)),
                                      ("message", .str e.message)]),
                      ("timestamp", .str ts)] }

/-!
## HttpErrorHandler (src/application/services/error-handler.service.ts)
-/

/-- The error context assembled by `HttpRouter.createErrorContext`. -/
structure ErrorContext where
  handlerName : Option String
  requestPath : Option String

/-- `generateCorrelationId`:
`` `req_${Date.now()}_${Math.random().toString(36).substring(2, 9)}` ``,
with the clock value and random suffix passed in explicitly. -/
def generateCorrelationId (nowMs : Nat) (rand : String) : String :=
  "req_" ++ toString nowMs ++ "_" ++ rand

/-- `getValidationErrorMessage`: name the offending route parameter when the
context carries a handler name and request path, else a generic message. -/
def getValidationErrorMessage (issues : List ZodIssue) (ctx : ErrorContext) : String :=
  match ctx.handlerName, ctx.requestPath, issues.head? with
  | some _, some p, some i =>
      "Invalid route parameter '" ++ joinPath i.path ++ "' in " ++ p ++ ": " ++ i.message
  | _, _, _ => "Request validation failed"

/-- `handleValidationError` (for raw `ZodError`s): status 400, code
`VALIDATION_ERROR`, `details.fieldErrors` and `details.issues`. -/
def handleValidationError (issues : List ZodIssue) (ctx : ErrorContext) (cid ts : String) :
    HttpResponse :=
  { status := 400,
    body := .obj
      [("error", .obj
          [("code", .str "VALIDATION_ERROR"),
           ("message", .str (getValidationErrorMessage issues ctx)),
           ("details", .obj
              [("fieldErrors", fieldErrorsJson (buildFieldErrors issues)),
               ("issues", .arr (issues.map (fun i =>
                  .obj [("field", .str (joinPath i.path)),
                        ("message", .str i.message),
                        ("code", .str i.code)])))])]),
       ("timestamp", .str ts),
       ("requestId", .str cid)] }

/-- `handleUnknownError`: always 500 / `INTERNAL_SERVER_ERROR`; the message
is generic in production and the raw error message otherwise, and outside
production the error's `stack` (when defined) is exposed. -/
def handleUnknownError (e : AppError) (cid ts : String) (isProduction : Bool)
    (stack : Option String) : HttpResponse :=
  { status := 500,
    body := .obj
      [("error", .obj
          ([("code", .str "INTERNAL_SERVER_ERROR"),
            ("message", .str (if isProduction then
                "An unexpected error occurred. Please try again later."
              else e.message))] ++
           (match isProduction, stack with
            | false, some st => [("stack", .str st)]
            | _, _ => []))),
       ("timestamp", .str ts),
       ("requestId", .str cid)] }

/-- `ApplicationError.toJSON`: `{code, message, details?}`. -/
def applicationErrorJson (code message : String) (details : Option Json) : Json :=
  .obj ([("code", .str code), ("message", .str message)] ++
        (match details with
         | some d => [("details", d)]
         | none => []))

/-- `HttpErrorHandler.handleError`: generate a correlation id (`cid`), then
dispatch on the error's class — raw `ZodError`s to `handleValidationError`,
`ApplicationError`s to a response with the error's own status code and
`toJSON`, everything else (including the wrapper `SchemaValidationError`,
which extends plain `Error`) to `handleUnknownError`. -/
def handleError (e : AppError) (ctx : ErrorContext) (cid ts : String)
    (isProduction : Bool) (stack : Option String) : HttpResponse :=
  match e with
  | .zodError issues => handleValidationError issues ctx cid ts
  | .applicationError code message statusCode details =>
      { status := statusCode,
        body := .obj [("error", applicationErrorJson code message details),
                      ("timestamp", .str ts),
                      ("requestId", .str cid)] }
  | _ => handleUnknownError e cid ts isProduction stack

/-- The router's body-validation failure path for `POST /users`
(`HttpRouter.executeHandler` → `validateRequestBody` →
`SchemaValidationService.validate` throws → `HttpRouter.handle` catches →
`HttpErrorHandler.handleError`). Returns `none` when validation passes (the
request then proceeds to the handler). -/
def routerBodyValidationResponse (body : Json) (cid ts : String) (isProduction : Bool) :
    Option HttpResponse :=
  match schemaValidate parseCreateUser body with
  | .error e =>
      some (handleError e { handlerName := none, requestPath := some "/users" }
              cid ts isProduction none)
  | .ok _ => none

/-!
## RouteNotFoundHandler and the unmatched-route path
-/

/-- `RouteNotFoundHandler.handle`: a direct 404 response with the ad-hoc
body `{error: "Not Found", message, timestamp}` (the raw request method is
interpolated into the message). -/
def routeNotFoundResponse (method path ts : String) : HttpResponse :=
  { status := 404,
    body := .obj [("error", .str "Not Found"),
                  ("message", .str ("No route found for " ++ method ++ " " ++ path)),
                  ("timestamp", .str ts)] }

/-- The MATCHING stage of `HttpRouter.handle`: a matched handler is passed
on for validation and execution; with no match, `HandlerFactory.findHandler`
returns the `RouteNotFoundHandler` (which declares no schemas), so
`executeHandler` directly produces its ad-hoc 404 response. -/
def dispatch (handlers : List Route) (method path ts : String) :
    (Route × MatchResult) ⊕ HttpResponse :=
  match findHandler handlers path method with
  | some r => Sum.inl r
  | none => Sum.inr (routeNotFoundResponse method path ts)

/-- The spec's standardized error envelope
`{error: {code, message, details?}, timestamp, requestId}` with a non-empty
`requestId`, as a predicate on response bodies (from the spec's words, for
comparison with what the code produces). -/
def isErrorEnvelope (b : Json) : Bool :=
  (match b.getField "error" with
   | some (.obj fs) => (fs.lookup "code").isSome && (fs.lookup "message").isSome
   | _ => false) &&
  (b.getField "timestamp").isSome &&
  (match b.getField "requestId" with
   | some (.str s) => !(s == "")
   | _ => false)

/-!
## Validation ordering in HttpRouter.executeHandler

`executeHandler` runs `validateParams`, then `validateQueryParams`, then
`validateRequestBody`, each returning `undefined` without validating when the
handler declares no corresponding schema; only `validateRequestBody` may
consume the request body stream (`request.json()`, only for a JSON
content-type), and a thrown validation error aborts the remaining steps. The
model records the observable events of one `executeHandler` run; the boolean
parameters fix whether each declared validation passes.
-/

/-- Observable events of the validation phase. -/
inductive Ev where
  | validateParams
  | validateQuery
  | readBody
  | validateBody
deriving DecidableEq

/-- `validateParams`: validates only when a params schema is declared. -/
def validateParamsEvs (hasSchema ok : Bool) : List Ev × Bool :=
  if hasSchema then ([.validateParams], ok) else ([], true)

/-- `validateQueryParams`: validates only when a query schema is declared. -/
def validateQueryEvs (hasSchema ok : Bool) : List Ev × Bool :=
  if hasSchema then ([.validateQuery], ok) else ([], true)

/-- `validateRequestBody`: without a body schema, nothing happens; with one,
`parseRequestBody` consumes the stream once for a JSON content-type (and may
fail), then the parsed value is validated. -/
def validateRequestBodyEvs (hasSchema ctJson parseOk ok : Bool) : List Ev × Bool :=
  if !hasSchema then ([], true)
  else if ctJson then
    if parseOk then ([.readBody, .validateBody], ok) else ([.readBody], false)
  else ([.validateBody], ok)

/-- One `executeHandler` validation phase: params, then query, then body,
stopping at the first failure; returns the event trace and whether the
phase completed. -/
def executeHandlerTrace (hasP pOk hasQ qOk hasB ctJson parseOk bOk : Bool) :
    List Ev × Bool :=
  let r1 := validateParamsEvs hasP pOk
  if !r1.2 then (r1.1, false)
  else
    let r2 := validateQueryEvs hasQ qOk
    if !r2.2 then (r1.1 ++ r2.1, false)
    else
      let r3 := validateRequestBodyEvs hasB ctJson parseOk bOk
      (r1.1 ++ r2.1 ++ r3.1, r3.2)

/-- Position of an event in the fixed params → query → body order. -/
def Ev.rank : Ev → Nat
  | .validateParams => 0
  | .validateQuery => 1
  | .readBody => 2
  | .validateBody => 3

/-- Is the trace ordered by `Ev.rank`? -/
def sortedByRank : List Ev → Bool
  | [] => true
  | [_] => true
  | a :: b :: t => decide (a.rank ≤ b.rank) && sortedByRank (b :: t)

/-- The parameter function for the zip/filterMap characterization of
captured params. -/
def segCapture : Seg × String → Option (String × String)
  | (.param n, x) => some (n, x)
  | (.lit _, _) => none

/-- A create-user JSON body `{name, email}`. -/
def mkUserBody (n e : String) : Json :=
  .obj [("name", .str n), ("email", .str e)]

/-- The repository/schema-level round trip of the spec: validate a raw
create-user body with `CreateUserSchema`, create the user through
`MemoryUserRepository.create`, then fetch it back by the returned id through
`MemoryUserRepository.findById`. -/
def createThenFetch (s : UserStore) (body : Json) (now : String) : Option User :=
  match schemaValidate parseCreateUser body with
  | .error _ => none
  | .ok dto =>
      match repoCreate s dto.name dto.email now with
      | .error _ => none
      | .ok (u, s') =>
          match repoFindById s' u.id with
          | .ok v => some v
          | .error _ => none

/-!
## Helper lemmas
-/

theorem substrAux_append_left (h t needle : List Char) (hsub : substrAux t needle = true) :
    substrAux (h ++ t) needle = true := by
  induction h with
  | nil => simpa using hsub
  | cons c cs ih =>
      rw [List.cons_append, substrAux]
      simp only [Bool.or_eq_true]
      exact Or.inr ih

theorem strIncludes_append_right (a b sub : String) (hsub : strIncludes b sub = true) :
    strIncludes (a ++ b) sub = true := by
  unfold strIncludes at *
  have hdata : (a ++ b).data = a.data ++ b.data := by
    cases a; cases b; rfl
  rw [hdata]
  exact substrAux_append_left _ _ _ hsub

theorem lowerStr_append (a b : String) : lowerStr (a ++ b) = lowerStr a ++ lowerStr b := by
  unfold lowerStr
  have hdata : (a ++ b).data = a.data ++ b.data := by
    cases a; cases b; rfl
  rw [hdata, List.map_append]
  cases a; cases b; rfl

theorem setEntry_find?_self (l : List User) (u : User) :
    (setEntry l u).find? (fun v => v.id == u.id) = some u := by
  induction l with
  | nil => simp [setEntry, List.find?]
  | cons v t ih =>
      rw [setEntry]
      by_cases h : (v.id == u.id) = true
      · simp [h, List.find?]
      · have h' : (v.id == u.id) = false := by
          cases hb : (v.id == u.id) with
          | false => rfl
          | true => exact absurd hb h
        simp only [h', Bool.false_eq_true, if_false, List.find?, h']
        exact ih

theorem setEntry_find?_isSome (l : List User) (u : User) (p : User → Bool)
    (hp : p u = true) : ((setEntry l u).find? p).isSome = true := by
  induction l with
  | nil => simp [setEntry, List.find?, hp]
  | cons v t ih =>
      rw [setEntry]
      by_cases h : (v.id == u.id) = true
      · simp [h, List.find?, hp]
      · have h' : (v.id == u.id) = false := by
          cases hb : (v.id == u.id) with
          | false => rfl
          | true => exact absurd hb h
        simp only [h', Bool.false_eq_true, if_false, List.find?]
        cases hv : p v with
        | true => simp
        | false => simpa using ih

theorem length_dropWhile_le (p : Char → Bool) (l : List Char) :
    (l.dropWhile p).length ≤ l.length := by
  induction l with
  | nil => simp
  | cons a t ih =>
      rw [List.dropWhile_cons]
      by_cases h : p a = true
      · simp only [h, if_true]
        exact Nat.le_trans ih (Nat.le_succ _)
      · have h' : p a = false := by
          cases hb : p a with
          | false => rfl
          | true => exact absurd hb h
        simp [h']

theorem trimStr_length_le (s : String) : (trimStr s).length ≤ s.length := by
  show (((s.data.dropWhile isJsWhitespace).reverse.dropWhile isJsWhitespace).reverse).length
      ≤ s.data.length
  rw [List.length_reverse]
  calc ((s.data.dropWhile isJsWhitespace).reverse.dropWhile isJsWhitespace).length
      ≤ (s.data.dropWhile isJsWhitespace).reverse.length :=
        length_dropWhile_le _ _
    _ = (s.data.dropWhile isJsWhitespace).length := List.length_reverse _
    _ ≤ s.data.length := length_dropWhile_le _ _

theorem matchSegs_params_exact (segs : List Seg) (parts : List String)
    (ps : List (String × String)) (h : matchSegs segs parts = some ps) :
    ps = (segs.zip parts).filterMap segCapture := by
  induction segs generalizing parts ps with
  | nil =>
      cases parts with
      | nil => simp [matchSegs] at h; simp [h.symm]
      | cons x xs => simp [matchSegs] at h
  | cons sg rest ih =>
      cases parts with
      | nil => cases sg <;> simp [matchSegs] at h
      | cons x xs =>
          cases sg with
          | lit s =>
              rw [matchSegs] at h
              by_cases hsx : s = x
              · rw [if_pos hsx] at h
                have := ih xs ps h
                simp [List.zip_cons_cons, segCapture, this]
              · rw [if_neg hsx] at h; exact absurd h (by simp)
          | param n =>
              rw [matchSegs] at h
              by_cases hx : x = ""
              · rw [if_pos hx] at h; exact absurd h (by simp)
              · rw [if_neg hx] at h
                cases hrec : matchSegs rest xs with
                | none => rw [hrec] at h; exact absurd h (by simp)
                | some r =>
                    rw [hrec] at h
                    simp only [Option.map_some'] at h
                    rw [Option.some.injEq] at h
                    have := ih xs r hrec
                    simp [← h, List.zip_cons_cons, segCapture, this]

theorem findHandlerAux_matchPattern (pathname nm : String) (hs : List Route)
    (h : Route) (m : MatchResult)
    (hfind : findHandlerAux pathname nm hs = some (h, m)) :
    matchPattern h.pathname pathname = some m := by
  induction hs with
  | nil => simp [findHandlerAux] at hfind
  | cons h' t ih =>
      rw [findHandlerAux] at hfind
      split at hfind
      · exact ih hfind
      · next m' hm' =>
          split at hfind
          · have hpair := Option.some.inj hfind
            have hfst : h' = h := congrArg Prod.fst hpair
            have hsnd : m' = m := congrArg Prod.snd hpair
            rw [← hfst, hm', hsnd]
          · exact ih hfind

/-!
## Theorems settling the claims
-/

/-- C1: `HandlerFactory.findHandler` scans the registered handlers in
registration order and returns the first handler whose path pattern matches
the request path and whose declared method equals the request method
normalized to uppercase; a handler whose pattern matches the path but whose
method differs is skipped and scanning continues, so two handlers sharing a
pathname but different methods both resolve correctly. -/
theorem findHandler_first_path_and_method_match
    (pre post : List Route) (h : Route) (pathname method : String) (m : MatchResult)
    (hpre : ∀ h' ∈ pre, matchPattern h'.pathname pathname = none ∨ ¬ h'.method = upperStr method)
    (hmatch : matchPattern h.pathname pathname = some m)
    (hmeth : h.method = upperStr method) :
    findHandler (pre ++ h :: post) pathname method = some (h, m) := by
  unfold findHandler
  induction pre with
  | nil =>
      simp only [List.nil_append]
      rw [findHandlerAux, hmatch]
      simp [hmeth]
  | cons h' t ih =>
      have hh' := hpre h' (by simp)
      rw [List.cons_append, findHandlerAux]
      split
      · exact ih (fun x hx => hpre x (by simp [hx]))
      · next m' hm' =>
          rcases hh' with hnone | hne
          · rw [hm'] at hnone; exact absurd hnone (by simp)
          · rw [if_neg hne]
            exact ih (fun x hx => hpre x (by simp [hx]))

/-- Witness for C1: with a `POST /users` handler registered before a
`GET /users` handler, a lowercase-method `get /users` request skips the
`POST` sibling and resolves to the `GET` handler. -/
theorem findHandler_first_path_and_method_match_witness :
    findHandler
      [{ pathname := "/users", method := "POST" }, { pathname := "/users", method := "GET" }]
      "/users" "get"
    = some ({ pathname := "/users", method := "GET" }, { path := "/users", params := [] }) :=
  findHandler_first_path_and_method_match
    [{ pathname := "/users", method := "POST" }] []
    { pathname := "/users", method := "GET" } "/users" "get"
    { path := "/users", params := [] }
    (by decide) (by decide) (by decide)

/-- C4: `HttpRouter.executeHandler` validates the declared input parts in
the fixed order params, then query, then body; the request body stream is
read only if the matched handler declares a `bodySchema`, and at most once
per request. -/
theorem executeHandler_validation_order_and_single_body_read
    (hasP pOk hasQ qOk hasB ctJson parseOk bOk : Bool) :
    sortedByRank (executeHandlerTrace hasP pOk hasQ qOk hasB ctJson parseOk bOk).1 = true ∧
    (executeHandlerTrace hasP pOk hasQ qOk hasB ctJson parseOk bOk).1.count Ev.readBody
      ≤ (if hasB then 1 else 0) := by
  cases hasP <;> cases pOk <;> cases hasQ <;> cases qOk <;> cases hasB <;> cases ctJson <;>
    cases parseOk <;> cases bOk <;> decide

/-- C5 (amended): whenever `findHandler` matches a handler, the value it
returns as `params` is the whole `path-to-regexp` match result; the captured
mapping — exactly one entry per `:name` parameter, each bound to the single
path segment it captured, with no additional keys — sits in that result's
`params` field, next to the matched `path`. -/
theorem findHandler_match_result_params_exact
    (handlers : List Route) (pathname method : String) (h : Route) (m : MatchResult)
    (hfind : findHandler handlers pathname method = some (h, m)) :
    m.path = pathname ∧
    m.params = ((parsePattern h.pathname).zip (splitPath pathname)).filterMap segCapture := by
  have hmp := findHandlerAux_matchPattern pathname (upperStr method) handlers h m hfind
  unfold matchPattern at hmp
  cases hms : matchSegs (parsePattern h.pathname) (splitPath pathname) with
  | none => rw [hms] at hmp; exact absurd hmp (by simp)
  | some ps =>
      rw [hms] at hmp
      simp only [Option.map_some'] at hmp
      have hm := Option.some.inj hmp
      rw [← hm]
      exact ⟨rfl, matchSegs_params_exact _ _ _ hms⟩

/-- Witness for C5 (amended): on the registered routes, `GET /users/42`
matches `/users/:id` and the match result's `params` field is exactly the
one-entry mapping capturing `id`. -/
theorem findHandler_match_result_params_exact_witness :
    ({ path := "/users/42", params := [("id", "42")] } : MatchResult).path = "/users/42" ∧
    ({ path := "/users/42", params := [("id", "42")] } : MatchResult).params
      = ((parsePattern "/users/:id").zip (splitPath "/users/42")).filterMap segCapture :=
  findHandler_match_result_params_exact appRoutes "/users/42" "GET"
    { pathname := "/users/:id", method := "GET" }
    { path := "/users/42", params := [("id", "42")] } (by decide)

/-- Counterexample for C5 as stated: at route `/users/:id` and path
`/users/42`, the value `findHandler` returns as `params` is not the bare
mapping `{id: "42"}` — viewed as a JS object it has no `id` key at all; the
mapping sits under its `params` key, an additional key `path` is present. -/
theorem findHandler_returns_wrapped_match_result :
    ((findHandler appRoutes "/users/42" "GET").map
        (fun r => ((MatchResult.toJson r.2).getField "id",
                   (MatchResult.toJson r.2).getField "path",
                   (MatchResult.toJson r.2).getField "params")))
      = some (none, some (Json.str "/users/42"), some (Json.obj [("id", Json.str "42")])) := rfl

theorem nameParse_ok (n : String) (hn1 : 1 ≤ n.length) (hn2 : n.length ≤ 100) :
    nameParse n = .ok (trimStr n) := by
  unfold nameParse nameCheckMsgs
  have h1 : ¬ (n.length < 1) := by omega
  have h2 : ¬ (n.length > 100) := by omega
  rw [if_neg h1, if_neg h2]
  rfl

theorem emailParse_ok (e : String) (he : isValidEmail e = true) :
    emailParse e = .ok (trimStr (lowerStr e)) := by
  unfold emailParse
  rw [he]
  rfl

theorem parseCreateUser_ok (n e : String) (hn1 : 1 ≤ n.length) (hn2 : n.length ≤ 100)
    (he : isValidEmail e = true) :
    parseCreateUser (mkUserBody n e) = .ok ⟨trimStr n, trimStr (lowerStr e)⟩ := by
  have hname : fieldParse "name" (some (.str n)) nameParse = .ok (trimStr n) := by
    simp only [fieldParse]
    rw [nameParse_ok n hn1 hn2]
    rfl
  have hemail : fieldParse "email" (some (.str e)) emailParse = .ok (trimStr (lowerStr e)) := by
    simp only [fieldParse]
    rw [emailParse_ok e he]
    rfl
  simp only [parseCreateUser, mkUserBody, List.lookup]
  simp only [show (("name" == "name") : Bool) = true from rfl,
             show (("email" == "name") : Bool) = false from rfl,
             show (("email" == "email") : Bool) = true from rfl]
  simp only [hname, hemail]

theorem createUserHandle_success (s : UserStore) (body : Json) (dto : CreateUserInput)
    (now ts : String)
    (hparse : parseCreateUser body = .ok dto)
    (hfresh : s.users.find? (fun u => u.email == dto.email) = none) :
    createUserHandle s body now ts =
      ({ status := 201,
         body := userDtoJson
           { id := toString s.idCounter, name := dto.name, email := dto.email,
             createdAt := now, updatedAt := now } },
       { users := setEntry s.users
           { id := toString s.idCounter, name := dto.name, email := dto.email,
             createdAt := now, updatedAt := now },
         idCounter := s.idCounter + 1 }) := by
  simp only [createUserHandle, schemaValidate, hparse, repoCreate, hfresh,
             Option.isSome_none, Bool.false_eq_true, if_false]

theorem createUserHandle_conflict (s : UserStore) (body : Json) (dto : CreateUserInput)
    (now ts : String)
    (hparse : parseCreateUser body = .ok dto)
    (hdup : (s.users.find? (fun u => u.email == dto.email)).isSome = true) :
    createUserHandle s body now ts =
      ({ status := 409,
         body := .obj [("error", .obj [("code", .str "INVALID_EMAIL"),
                                       ("message", .str "User with this email already exists")]),
                       ("timestamp", .str ts)] }, s) := by
  simp only [createUserHandle, schemaValidate, hparse, repoCreate, hdup, if_true]
  have hstatus : createGetErrorStatusCode conflictUserEmailError = 409 := by decide
  have hcode : createFormatErrorResponse conflictUserEmailError
      = .obj [("code", .str "INVALID_EMAIL"),
              ("message", .str "User with this email already exists")] := by
    have h1 : createGetErrorCode conflictUserEmailError = "INVALID_EMAIL" := by decide
    simp only [createFormatErrorResponse, h1]
    rfl
  rw [hstatus, hcode]

/-- C2 (amended): a request whose path and method match no registered route
yields a 404 — but not by raising a route-not-found error through the error
pipeline: `HandlerFactory.findHandler` hands the request to
`RouteNotFoundHandler`, which builds an ad-hoc body
`{error: "Not Found", message, timestamp}`; the body has no `requestId` and
is not the standardized `{error: {code, message, details?}, timestamp,
requestId}` envelope. -/
theorem unmatched_route_ad_hoc_404
    (handlers : List Route) (method path ts : String)
    (hnone : findHandler handlers path method = none) :
    dispatch handlers method path ts = Sum.inr (routeNotFoundResponse method path ts) ∧
    (routeNotFoundResponse method path ts).status = 404 ∧
    (routeNotFoundResponse method path ts).body.getField "requestId" = none ∧
    isErrorEnvelope (routeNotFoundResponse method path ts).body = false := by
  refine ⟨?_, rfl, rfl, rfl⟩
  unfold dispatch
  rw [hnone]

/-- Witness for C2 (amended): `GET /nope` against the registered routes. -/
theorem unmatched_route_ad_hoc_404_witness :
    dispatch appRoutes "GET" "/nope" "2026-01-01T00:00:00.000Z"
      = Sum.inr (routeNotFoundResponse "GET" "/nope" "2026-01-01T00:00:00.000Z") ∧
    (routeNotFoundResponse "GET" "/nope" "2026-01-01T00:00:00.000Z").status = 404 ∧
    (routeNotFoundResponse "GET" "/nope" "2026-01-01T00:00:00.000Z").body.getField
        "requestId" = none ∧
    isErrorEnvelope (routeNotFoundResponse "GET" "/nope" "2026-01-01T00:00:00.000Z").body
      = false :=
  unmatched_route_ad_hoc_404 appRoutes "GET" "/nope" "2026-01-01T00:00:00.000Z" (by decide)

/-- Counterexample for C2 as stated: at `GET /nope` the pipeline's 404 body
is the `RouteNotFoundHandler`'s ad-hoc object — its `error` field is the
plain string `"Not Found"` (no `code`), and it has no `requestId` — so it is
not the standardized error envelope raised through the error pipeline. -/
theorem unmatched_route_body_not_standard_envelope :
    (dispatch appRoutes "GET" "/nope" "2026-02-02T00:00:00.000Z").getRight?.map
        (fun r => (r.status,
                   r.body.getField "error",
                   r.body.getField "requestId",
                   isErrorEnvelope r.body))
      = some (404, some (Json.str "Not Found"), none, false) := rfl

/-- C3: at the failing input `POST /users` with JSON body `{}` (a route with
a declared body schema, raw input failing validation), the pipeline's
response is 500 `INTERNAL_SERVER_ERROR` with no `error.details` at all: the
zod failure is wrapped by `SchemaValidationService` into a
`SchemaValidationError`, which is neither a `z.ZodError` nor an
`ApplicationError`, so `HttpErrorHandler.handleError` falls through to
`handleUnknownError` — the 400 `VALIDATION_ERROR` with
`details.fieldErrors` demanded by the claim (and implemented in the dead
`handleValidationError` branch) is never produced. -/
theorem invalid_body_yields_500_internal_server_error :
    ((routerBodyValidationResponse (Json.obj []) "req_1_abcdefg" "2026-01-01T00:00:00.000Z"
        false).map (fun r => (r.status, r.errorCode, r.errorDetails))
      = some (500, some "INTERNAL_SERVER_ERROR", none)) ∧
    (match parseCreateUser (Json.obj []) with
     | .error issues => (buildFieldErrors issues).map Prod.fst
     | .ok _ => []) = ["name", "email"] := ⟨rfl, rfl⟩

/-- C6 (amended): two well-formed create-user requests whose emails are
equal up to letter case: if the first create succeeds, the second create's
response has status 409, but its error code is `INVALID_EMAIL` — the
handler's `getErrorCode` classifies the `ConflictError` by message
substrings (`"email"` matches first), so the `CONFLICT` code of the error
object never reaches the body. -/
theorem duplicate_email_second_create_409_invalid_email
    (s : UserStore) (n1 e1 n2 e2 now1 ts1 now2 ts2 : String)
    (hn1 : 1 ≤ n1.length) (hn1' : n1.length ≤ 100) (he1 : isValidEmail e1 = true)
    (hn2 : 1 ≤ n2.length) (hn2' : n2.length ≤ 100) (he2 : isValidEmail e2 = true)
    (hcase : lowerStr e1 = lowerStr e2)
    (hfresh : s.users.find? (fun u => u.email == trimStr (lowerStr e1)) = none) :
    (createUserHandle s (mkUserBody n1 e1) now1 ts1).1.status = 201 ∧
    (createUserHandle (createUserHandle s (mkUserBody n1 e1) now1 ts1).2
        (mkUserBody n2 e2) now2 ts2).1.status = 409 ∧
    (createUserHandle (createUserHandle s (mkUserBody n1 e1) now1 ts1).2
        (mkUserBody n2 e2) now2 ts2).1.errorCode = some "INVALID_EMAIL" := by
  have hp1 := parseCreateUser_ok n1 e1 hn1 hn1' he1
  have h1 := createUserHandle_success s (mkUserBody n1 e1)
    ⟨trimStr n1, trimStr (lowerStr e1)⟩ now1 ts1 hp1 hfresh
  have hp2 := parseCreateUser_ok n2 e2 hn2 hn2' he2
  have hemail2 : trimStr (lowerStr e2) = trimStr (lowerStr e1) := by rw [hcase]
  rw [hemail2] at hp2
  have hdup : ((createUserHandle s (mkUserBody n1 e1) now1 ts1).2.users.find?
      (fun u => u.email == trimStr (lowerStr e1))).isSome = true := by
    rw [h1]
    exact setEntry_find?_isSome s.users
      { id := toString s.idCounter, name := trimStr n1, email := trimStr (lowerStr e1),
        createdAt := now1, updatedAt := now1 }
      (fun u => u.email == trimStr (lowerStr e1)) (by simp)
  have h2 := createUserHandle_conflict (createUserHandle s (mkUserBody n1 e1) now1 ts1).2
    (mkUserBody n2 e2) ⟨trimStr n2, trimStr (lowerStr e1)⟩ now2 ts2 hp2 hdup
  refine ⟨by rw [h1], by rw [h2], by rw [h2]; rfl⟩

/-- Witness for C6 (amended): creating `a@b.com` then `A@B.com` on an empty
store: 201 then 409 with body code `INVALID_EMAIL`. -/
theorem duplicate_email_second_create_409_invalid_email_witness :
    (createUserHandle ⟨[], 1⟩ (mkUserBody "John Doe" "a@b.com") "T1" "T1").1.status = 201 ∧
    (createUserHandle (createUserHandle ⟨[], 1⟩ (mkUserBody "John Doe" "a@b.com") "T1" "T1").2
        (mkUserBody "Jane Roe" "A@B.com") "T2" "T2").1.status = 409 ∧
    (createUserHandle (createUserHandle ⟨[], 1⟩ (mkUserBody "John Doe" "a@b.com") "T1" "T1").2
        (mkUserBody "Jane Roe" "A@B.com") "T2" "T2").1.errorCode = some "INVALID_EMAIL" :=
  duplicate_email_second_create_409_invalid_email ⟨[], 1⟩ "John Doe" "a@b.com" "Jane Roe"
    "A@B.com" "T1" "T1" "T2" "T2" (by decide) (by decide) (by decide) (by decide) (by decide)
    (by decide) (by decide) (by decide)

/-- Counterexample for C6 as stated: on the concrete duplicate-email pair
(`a@b.com`, then `A@B.com`) the second create answers 409 but with error
code `INVALID_EMAIL`, not `CONFLICT`. -/
theorem duplicate_email_second_create_code_not_conflict :
    (createUserHandle (createUserHandle ⟨[], 1⟩ (mkUserBody "John Doe" "a@b.com") "N1" "S1").2
        (mkUserBody "Jane Roe" "A@B.com") "N2" "S2").1.status = 409 ∧
    (createUserHandle (createUserHandle ⟨[], 1⟩ (mkUserBody "John Doe" "a@b.com") "N1" "S1").2
        (mkUserBody "Jane Roe" "A@B.com") "N2" "S2").1.errorCode = some "INVALID_EMAIL" ∧
    ¬ (createUserHandle (createUserHandle ⟨[], 1⟩ (mkUserBody "John Doe" "a@b.com") "N1" "S1").2
        (mkUserBody "Jane Roe" "A@B.com") "N2" "S2").1.errorCode = some "CONFLICT" := by
  refine ⟨rfl, rfl, by decide⟩

/-- C7 (amended): a `GET /users/:id` request whose id is absent from the
store answers 404, but the error code in the body is `USER_NOT_FOUND` — the
handler's `getErrorCode` rebuilds the code from message substrings
(`"not found"`), so the `NOT_FOUND` code carried by the thrown
`NotFoundError` never reaches the body. -/
theorem get_user_absent_404_user_not_found
    (s : UserStore) (id ts : String)
    (habsent : s.users.find? (fun u => u.id == id) = none) :
    (getUserHandle s id ts).status = 404 ∧
    (getUserHandle s id ts).errorCode = some "USER_NOT_FOUND" := by
  have hmsg : (notFoundUserError id).message
      = ("User with identifier " ++ id) ++ " not found" := rfl
  have hinc : strIncludes (lowerStr ((notFoundUserError id).message)) "not found" = true := by
    rw [hmsg, lowerStr_append]
    exact strIncludes_append_right _ _ _ (by decide)
  have hstatus : getGetErrorStatusCode (notFoundUserError id) = 404 := by
    unfold getGetErrorStatusCode
    simp [hinc]
  have hcode : getGetErrorCode (notFoundUserError id) = "USER_NOT_FOUND" := by
    unfold getGetErrorCode
    simp [hinc]
  simp only [getUserHandle, repoFindById, habsent]
  refine ⟨hstatus, ?_⟩
  simp only [HttpResponse.errorCode, Json.getField, List.lookup, hcode]
  rfl

/-- Witness for C7 (amended): `GET /users/does-not-exist` on an empty store. -/
theorem get_user_absent_404_user_not_found_witness :
    (getUserHandle ⟨[], 1⟩ "does-not-exist" "2026-01-01T00:00:00.000Z").status = 404 ∧
    (getUserHandle ⟨[], 1⟩ "does-not-exist" "2026-01-01T00:00:00.000Z").errorCode
      = some "USER_NOT_FOUND" :=
  get_user_absent_404_user_not_found ⟨[], 1⟩ "does-not-exist" "2026-01-01T00:00:00.000Z"
    (by decide)

/-- Counterexample for C7 as stated: at the concrete absent id the response
code is `USER_NOT_FOUND`, not the claimed `NOT_FOUND`. -/
theorem get_user_absent_code_not_NOT_FOUND :
    (getUserHandle ⟨[], 1⟩ "missing-user" "2026-03-03T00:00:00.000Z").status = 404 ∧
    (getUserHandle ⟨[], 1⟩ "missing-user" "2026-03-03T00:00:00.000Z").errorCode
      = some "USER_NOT_FOUND" ∧
    ¬ (getUserHandle ⟨[], 1⟩ "missing-user" "2026-03-03T00:00:00.000Z").errorCode
      = some "NOT_FOUND" := by
  refine ⟨rfl, rfl, by decide⟩

/-- C8: creating `{name: "John Doe", email: "John@Example.com"}` and then
fetching the user by the returned id yields email `john@example.com`
(lower-cased by `EmailSchema`) and name `John Doe` (unchanged). -/
theorem create_then_fetch_round_trip
    (s : UserStore) (now : String)
    (hfresh : s.users.find? (fun u => u.email == "john@example.com") = none) :
    createThenFetch s (mkUserBody "John Doe" "John@Example.com") now
      = some { id := toString s.idCounter, name := "John Doe", email := "john@example.com",
               createdAt := now, updatedAt := now } := by
  have hp : parseCreateUser (mkUserBody "John Doe" "John@Example.com")
      = .ok { name := "John Doe", email := "john@example.com" } := rfl
  simp only [createThenFetch, schemaValidate, hp, repoCreate, hfresh,
             Option.isSome_none, Bool.false_eq_true, if_false, repoFindById]
  rw [setEntry_find?_self s.users
    { id := toString s.idCounter, name := "John Doe", email := "john@example.com",
      createdAt := now, updatedAt := now }]

/-- Witness for C8: the round trip on the empty store. -/
theorem create_then_fetch_round_trip_witness :
    createThenFetch ⟨[], 1⟩ (mkUserBody "John Doe" "John@Example.com") "2026-01-01T00:00:00.000Z"
      = some { id := "1", name := "John Doe", email := "john@example.com",
               createdAt := "2026-01-01T00:00:00.000Z",
               updatedAt := "2026-01-01T00:00:00.000Z" } :=
  create_then_fetch_round_trip ⟨[], 1⟩ "2026-01-01T00:00:00.000Z" (by decide)

/-- C9 (amended): every response built by `HttpErrorHandler.handleError`
carries the freshly generated, non-empty correlation id as `requestId` and
the ISO timestamp it is given — but responses built outside the error
handler (the request handlers' own catch blocks and `RouteNotFoundHandler`)
carry a timestamp and no `requestId` at all. -/
theorem handleError_response_has_fresh_request_id
    (e : AppError) (ctx : ErrorContext) (nowMs : Nat) (rand ts : String)
    (isProduction : Bool) (stack : Option String) :
    (handleError e ctx (generateCorrelationId nowMs rand) ts isProduction stack).body.getField
        "requestId" = some (.str (generateCorrelationId nowMs rand)) ∧
    (handleError e ctx (generateCorrelationId nowMs rand) ts isProduction stack).body.getField
        "timestamp" = some (.str ts) ∧
    ¬ generateCorrelationId nowMs rand = "" := by
  refine ⟨?_, ?_, ?_⟩
  · cases e <;> rfl
  · cases e <;> rfl
  · intro h
    have hlen := congrArg String.length h
    rw [generateCorrelationId] at hlen
    simp [String.length_append] at hlen
    exact absurd hlen.1.1.1 (by decide)

/-- Counterexample for C9 as stated: the 404 produced by
`GetUserRequestHandler`'s catch block is an error response of the system
whose body has a timestamp but no `requestId` key at all. -/
theorem get_user_error_response_lacks_request_id :
    (getUserHandle ⟨[], 1⟩ "no-such-id" "2026-04-04T00:00:00.000Z").status = 404 ∧
    (getUserHandle ⟨[], 1⟩ "no-such-id" "2026-04-04T00:00:00.000Z").body.getField "timestamp"
      = some (Json.str "2026-04-04T00:00:00.000Z") ∧
    (getUserHandle ⟨[], 1⟩ "no-such-id" "2026-04-04T00:00:00.000Z").body.getField "requestId"
      = none := ⟨rfl, rfl, rfl⟩

/-- C10 (amended): `NameSchema` accepts a name input exactly when the raw,
untrimmed string has length between 1 and 100, and stores its trimmed value;
the stored value is therefore never longer than 100 characters, but it may
be empty (whitespace-only inputs pass the `min(1)` check, which runs before
`trim`). -/
theorem name_schema_checks_raw_length_stores_trimmed (raw : String) :
    (1 ≤ raw.length ∧ raw.length ≤ 100 → nameParse raw = .ok (trimStr raw)) ∧
    ((raw.length = 0 ∨ 100 < raw.length) → (nameParse raw).isOk = false) ∧
    (trimStr raw).length ≤ raw.length := by
  refine ⟨fun h => nameParse_ok raw h.1 h.2, ?_, trimStr_length_le raw⟩
  intro h
  unfold nameParse nameCheckMsgs
  rcases h with h | h
  · have h1 : raw.length < 1 := by omega
    rw [if_pos h1]
    rfl
  · have h1 : ¬ (raw.length < 1) := by omega
    have h2 : raw.length > 100 := h
    rw [if_neg h1, if_pos h2]
    rfl

/-- Witness for C10 (amended): the two-character name `"ab"` is accepted and
stored unchanged. -/
theorem name_schema_checks_raw_length_stores_trimmed_witness :
    nameParse "ab" = .ok (trimStr "ab") :=
  (name_schema_checks_raw_length_stores_trimmed "ab").1 (by decide)

/-- Counterexample for C10 as stated: the whitespace-only name `" "` passes
schema validation (raw length 1 satisfies `min(1)`), the create succeeds
with 201, and the stored user's name is the empty string — not non-empty. -/
theorem whitespace_name_accepted_stored_empty :
    (createUserHandle ⟨[], 1⟩ (mkUserBody " " "a@b.com") "T1" "T2").1.status = 201 ∧
    (createUserHandle ⟨[], 1⟩ (mkUserBody " " "a@b.com") "T1" "T2").2.users
      = [{ id := "1", name := "", email := "a@b.com", createdAt := "T1", updatedAt := "T1" }] := by
  exact ⟨rfl, rfl⟩
